import Mathlib

/-!
Verification of the DiOS generic vector container (`src/include/libk/vector.h`)
against its natural-language specification.

The C header generates, per element type, a packed struct
`{ uint32_t size; uint32_t capacity; size_t data_size; T* data; ... }`
together with `push`, `pop`, `delete` and `new` functions.  We embed the
container shallowly: `size` and `capacity` are natural numbers and every
operation the C code performs on the `uint32_t` fields is translated with an
explicit reduction modulo 2^32 (`vect->size++`, `vect->size--`).  The backing
buffer is a `List (Option α)` of length `capacity`; a `none` entry models an
allocated but uninitialized slot, so reads of uninitialized or out-of-range
memory are visible as `none`.

The bodies of `new_vector`, `vector_resize` and `delete_vector` are not part
of the available sources (only their declarations appear in the header), so
those three are modelled from the specification text and are marked as such
in their doc comments.  Everything else is translated directly from the
macro bodies `push_##type##_vector`, `pop_##type##_vector`,
`delete_##type##_ptr_vector`, `new_##type##_vector`,
`new_##type##_ptr_vector` in the header.
-/

namespace DiOS

/-- `2^32`, the modulus of the `uint32_t` fields `size` and `capacity`. -/
def U32_MOD : Nat := 4294967296

/-- `2^32 - 1`, the largest value of a `uint32_t`; adding it is how the
wrapping decrement `vect->size--` is expressed modulo `U32_MOD`. -/
def U32_MAX : Nat := 4294967295

/-- `#define DEFAULT_CAPACITY 1` (vector.h line 9). -/
def DEFAULT_CAPACITY : Nat := 1

/-- The struct generated by `GENERATE_VECTOR(type)` (vector.h lines 61-69):
`uint32_t size; uint32_t capacity; size_t data_size; type* data;`.
The data buffer is a list with one entry per allocated slot; `none` marks a
slot whose bytes were never written.  The stored function pointers
(`delete`, `push`, `pop`) are a static dispatch table set once at
construction and are represented by the Lean functions themselves. -/
@[ext]
structure vector (α : Type) where
  size : Nat
  capacity : Nat
  data_size : Nat
  data : List (Option α)
deriving DecidableEq, Repr

/-- Reallocation of the backing buffer: a fresh buffer of `cap` slots whose
first `min count cap` slots are copied from the old buffer `src` and whose
remaining slots are uninitialized.  (When `count > cap` the C `memcpy` would
write past the new buffer; the model keeps only the slots that fit.) -/
def copy_slots {α : Type} (src : List (Option α)) (count cap : Nat) : List (Option α) :=
  src.take (min count cap) ++ List.replicate (cap - min count cap) none

/-- Modelled from the spec: the body of `vector_resize` (declared at
vector.h line 54) is not in the available sources.  Per the spec, "when
full, the new capacity is computed as `max(1, capacity * 2)`"; growth
"reallocates a fresh buffer of `new_capacity * element_size` bytes, copies
the first `size` element-slots verbatim from the old buffer, frees the old
buffer, and updates `capacity`".  `size` is not modified. -/
def vector_resize {α : Type} (v : vector α) : vector α :=
  let new_capacity := max 1 (v.capacity * 2)
  { v with capacity := new_capacity
           data := copy_slots v.data v.size new_capacity }

/-- `push_##type##_vector` (vector.h lines 71-77): if `size == capacity`
resize, then `vect->data[vect->size] = value; vect->size++;`.  The store is
a `List.set` (out-of-range stores, which are undefined behavior in C, leave
the buffer unchanged); the increment of the `uint32_t` field wraps
modulo 2^32. -/
def push_vector {α : Type} (v : vector α) (value : α) : vector α :=
  let v1 := if v.size = v.capacity then vector_resize v else v
  { v1 with data := v1.data.set v1.size (some value)
            size := (v1.size + 1) % U32_MOD }

/-- `pop_##type##_vector` (vector.h lines 79-82):
`vect->size--; return vect->data[vect->size];`.  The decrement of the
`uint32_t` field wraps modulo 2^32; the returned slot is read at the new
`size` (reads of uninitialized or out-of-range memory yield `none`). -/
def pop_vector {α : Type} (v : vector α) : Option α × vector α :=
  let s := (U32_MAX + v.size) % U32_MOD
  (v.data.getD s none, { v with size := s })

/-- The struct generated by `GENERATE_PTR_VECTOR(type)` (vector.h lines
98-107): same header fields plus `type** data; bool own_ptrs;`.  Stored
pointers are modelled as abstract heap addresses (`Nat`). -/
@[ext]
structure ptr_vector where
  size : Nat
  capacity : Nat
  data_size : Nat
  data : List (Option Nat)
  own_ptrs : Bool
deriving DecidableEq, Repr

/-- `vector_resize` as invoked from the pointer variant: the C code casts
the pointer struct to `vector*`, so only the four shared header fields are
touched and `own_ptrs` is untouched.  Modelled from the spec exactly as
`vector_resize`. -/
def ptr_vector_resize (v : ptr_vector) : ptr_vector :=
  let new_capacity := max 1 (v.capacity * 2)
  { v with capacity := new_capacity
           data := copy_slots v.data v.size new_capacity }

/-- `push_##type##_ptr_vector` (vector.h lines 109-115). -/
def push_ptr_vector (v : ptr_vector) (value : Nat) : ptr_vector :=
  let v1 := if v.size = v.capacity then ptr_vector_resize v else v
  { v1 with data := v1.data.set v1.size (some value)
            size := (v1.size + 1) % U32_MOD }

/-- `pop_##type##_ptr_vector` (vector.h lines 117-120). -/
def pop_ptr_vector (v : ptr_vector) : Option Nat × ptr_vector :=
  let s := (U32_MAX + v.size) % U32_MOD
  (v.data.getD s none, { v with size := s })

/-- Observable effect of deleting a pointer vector: which referent
addresses were passed to `kfree`, in order, and whether the backing buffer
was released. -/
structure DeleteEffect where
  freed_referents : List (Option Nat)
  buffer_released : Bool
deriving DecidableEq, Repr

/-- `delete_##type##_ptr_vector` (vector.h lines 122-129): if `own_ptrs`,
`kfree(vect->data[i])` for `i` in `[0, size)`, then `delete_vector` frees
the backing buffer.  (`delete_vector`'s body is not in the available
sources; per the spec it "frees the backing buffer", recorded here as
`buffer_released := true`.) -/
def delete_ptr_vector (v : ptr_vector) : DeleteEffect :=
  { freed_referents := if v.own_ptrs then v.data.take v.size else []
    buffer_released := true }

/-- Outcome of the underlying allocation request. -/
inductive Alloc where
  | success
  | failure
deriving DecidableEq, Repr

/-- Outcome of running a generated constructor.  `alloc_failure` is the
outcome the spec asks for on allocator exhaustion (a propagated
allocation-failure condition); `undefined_behavior` marks a path on which
the C code dereferences the failed allocation result. -/
inductive CtorOutcome (β : Type) where
  | ok (v : β)
  | alloc_failure
  | undefined_behavior
deriving DecidableEq, Repr

/-- Modelled from the spec: the body of `new_vector` (declared at vector.h
line 52) is not in the available sources.  Per the spec, construction
"allocates a buffer sized for the default capacity (1 element); `size = 0`",
and per spec section 7 "the baseline design referenced here does not check
this [allocation failure]" — so on a failed allocation no container value is
produced. -/
def new_vector (α : Type) (ds : Nat) (a : Alloc) : Option (vector α) :=
  match a with
  | Alloc.success => some { size := 0, capacity := DEFAULT_CAPACITY, data_size := ds
                            data := List.replicate DEFAULT_CAPACITY none }
  | Alloc.failure => none

/-- The value vector produced by a successful `new_int_vector()` call
(`data_size = sizeof(int) = 4`). -/
def fresh_int_vector : vector Int :=
  { size := 0, capacity := DEFAULT_CAPACITY, data_size := 4
    data := List.replicate DEFAULT_CAPACITY none }

/-- `new_##type##_vector` (vector.h lines 88-95) instantiated at `int`:
calls `new_vector` and then unconditionally assigns the function pointers
through the returned pointer (`vector->delete = ...`) with no check of the
allocation result, so a failed allocation is dereferenced: undefined
behavior, not a propagated failure. -/
def new_int_vector (a : Alloc) : CtorOutcome (vector Int) :=
  match new_vector Int 4 a with
  | some v => CtorOutcome.ok v
  | none => CtorOutcome.undefined_behavior

/-- The pointer vector produced by a successful
`new_char_ptr_vector(own_ptrs)` call (`data_size = sizeof(char*) = 4` on
the i386 target). -/
def fresh_ptr_vector (own : Bool) : ptr_vector :=
  { size := 0, capacity := DEFAULT_CAPACITY, data_size := 4
    data := List.replicate DEFAULT_CAPACITY none, own_ptrs := own }

/-- `new_##type##_ptr_vector` (vector.h lines 131-140) instantiated at
`char`: calls `new_vector`, then unconditionally assigns
`vector->own_ptrs = own_ptrs` and the function pointers through the
returned pointer, with no check of the allocation result. -/
def new_char_ptr_vector (own : Bool) (a : Alloc) : CtorOutcome ptr_vector :=
  match a with
  | Alloc.success => CtorOutcome.ok (fresh_ptr_vector own)
  | Alloc.failure => CtorOutcome.undefined_behavior

/-- Well-formedness of a reachable container state: the spec invariant
`size ≤ capacity`, the `uint32_t` range of `size`, a backing buffer of
exactly `capacity` slots, and initialized contents on `[0, size)`
(spec section 3). -/
def vector_wf {α : Type} (v : vector α) : Prop :=
  v.size ≤ v.capacity ∧ v.size < U32_MOD ∧ v.capacity < U32_MOD ∧
    v.data.length = v.capacity ∧
    ∀ i, i < v.size → (v.data.getD i none).isSome = true

/-- Well-formedness of a reachable pointer-container state. -/
def ptr_vector_wf (v : ptr_vector) : Prop :=
  v.size ≤ v.capacity ∧ v.size < U32_MOD ∧ v.capacity < U32_MOD ∧
    v.data.length = v.capacity ∧
    ∀ i, i < v.size → (v.data.getD i none).isSome = true

instance {α : Type} [DecidableEq α] (v : vector α) : Decidable (vector_wf v) := by
  unfold vector_wf; infer_instance

instance (v : ptr_vector) : Decidable (ptr_vector_wf v) := by
  unfold ptr_vector_wf; infer_instance

/-- Pushing each element of `xs` in order (`push_all v [x1, ..., xn]`
performs `push x1`, then `push x2`, ...). -/
def push_all {α : Type} (v : vector α) (xs : List α) : vector α :=
  xs.foldl push_vector v

/-- Popping `n` times, collecting the returned values in pop order. -/
def pop_n {α : Type} : Nat → vector α → List (Option α) × vector α
  | 0, v => ([], v)
  | n + 1, v =>
      let p := pop_vector v
      let r := pop_n n p.2
      (p.1 :: r.1, r.2)

/-- A single container operation, for stating invariants over arbitrary
operation sequences. -/
inductive VOp where
  | vpush (x : Int)
  | vpop
deriving DecidableEq, Repr

/-- Effect of one operation on an `int` vector. -/
def vop_step (v : vector Int) : VOp → vector Int
  | VOp.vpush x => push_vector v x
  | VOp.vpop => (pop_vector v).2

/-- Running a sequence of operations. -/
def run_vops (v : vector Int) (ops : List VOp) : vector Int :=
  ops.foldl vop_step v

/-- Every `pop` in the sequence is applied to a vector with `size > 0`
(the spec's precondition for `pop`). -/
def vops_ok (v : vector Int) : List VOp → Bool
  | [] => true
  | VOp.vpush x :: rest => vops_ok (push_vector v x) rest
  | VOp.vpop :: rest => decide (0 < v.size) && vops_ok (pop_vector v).2 rest

/-- The smallest power of two that is `≥ n`, with the convention
`pow2ceil 0 = 1`. -/
def pow2ceil (n : Nat) : Nat :=
  2 ^ Nat.clog 2 n

/-- `c` is the least power of two with `n ≤ c`. -/
def IsLeastPow2GE (c n : Nat) : Prop :=
  (∃ k, c = 2 ^ k) ∧ n ≤ c ∧ ∀ m, (∃ k, m = 2 ^ k) → n ≤ m → c ≤ m

/-- The canonical state after `n` pushes (no pops, no `size` wrap):
`size = n`, `capacity = pow2ceil n`, contents `xs` followed by
uninitialized slots up to capacity. -/
def canon_state (xs : List Int) : vector Int :=
  { size := xs.length, capacity := pow2ceil xs.length, data_size := 4
    data := xs.map some ++ List.replicate (pow2ceil xs.length - xs.length) none }

/-! ### Basic arithmetic and list helpers -/

theorem U32_MOD_pos : 0 < U32_MOD := by
  unfold U32_MOD
  omega

/-- The wrapping decrement of the `uint32_t` size field agrees with the
mathematical decrement on nonzero in-range values. -/
theorem u32_dec_eq (s : Nat) (h0 : 0 < s) (h1 : s < U32_MOD) :
    (U32_MAX + s) % U32_MOD = s - 1 := by
  have h2 : U32_MAX + s = U32_MOD + (s - 1) := by
    unfold U32_MAX U32_MOD at *
    omega
  rw [h2, Nat.add_mod_left, Nat.mod_eq_of_lt (by omega)]

theorem take_set_of_le {α : Type} (l : List α) (i n : Nat) (a : α) (h : n ≤ i) :
    (l.set i a).take n = l.take n := by
  apply List.ext_getElem?
  intro j
  simp only [List.getElem?_take, List.getElem?_set]
  by_cases hj : j < n
  · have : ¬ i = j := by omega
    simp [hj, this]
  · simp [hj]

theorem set_append_cons_len {α : Type} (l : List α) (a b : α) (r : List α) (n : Nat)
    (h : l.length = n) : (l ++ a :: r).set n b = l ++ b :: r := by
  subst h
  rw [List.set_append]
  simp

theorem set_getElem_self {α : Type} (l : List α) (i : Nat) (a : α)
    (h : l[i]? = some a) : l.set i a = l := by
  apply List.ext_getElem?
  intro j
  rw [List.getElem?_set]
  by_cases hij : i = j
  · subst hij
    have hlen : i < l.length := by
      by_contra hc
      rw [List.getElem?_eq_none (by omega)] at h
      exact Option.noConfusion h
    simp [hlen, h]
  · simp [hij]

/-! ### Projection lemmas for the container operations -/

@[simp]
theorem vector_resize_size {α : Type} (v : vector α) :
    (vector_resize v).size = v.size := rfl

@[simp]
theorem vector_resize_capacity {α : Type} (v : vector α) :
    (vector_resize v).capacity = max 1 (v.capacity * 2) := rfl

@[simp]
theorem push_vector_size {α : Type} (v : vector α) (x : α) :
    (push_vector v x).size = (v.size + 1) % U32_MOD := by
  unfold push_vector
  by_cases h : v.size = v.capacity <;> simp [h]

@[simp]
theorem push_vector_capacity {α : Type} (v : vector α) (x : α) :
    (push_vector v x).capacity =
      if v.size = v.capacity then max 1 (v.capacity * 2) else v.capacity := by
  unfold push_vector
  by_cases h : v.size = v.capacity <;> simp [h, vector_resize]

@[simp]
theorem push_vector_data_size {α : Type} (v : vector α) (x : α) :
    (push_vector v x).data_size = v.data_size := by
  unfold push_vector
  by_cases h : v.size = v.capacity <;> simp [h, vector_resize]

theorem push_vector_data {α : Type} (v : vector α) (x : α) :
    (push_vector v x).data =
      (if v.size = v.capacity then copy_slots v.data v.size (max 1 (v.capacity * 2))
        else v.data).set v.size (some x) := by
  unfold push_vector
  by_cases h : v.size = v.capacity <;> simp [h, vector_resize]

@[simp]
theorem pop_vector_snd_size {α : Type} (v : vector α) :
    (pop_vector v).2.size = (U32_MAX + v.size) % U32_MOD := rfl

@[simp]
theorem pop_vector_snd_capacity {α : Type} (v : vector α) :
    (pop_vector v).2.capacity = v.capacity := rfl

@[simp]
theorem pop_vector_snd_data {α : Type} (v : vector α) :
    (pop_vector v).2.data = v.data := rfl

@[simp]
theorem pop_vector_fst {α : Type} (v : vector α) :
    (pop_vector v).1 = v.data.getD ((U32_MAX + v.size) % U32_MOD) none := rfl

@[simp]
theorem push_all_nil {α : Type} (v : vector α) : push_all v [] = v := rfl

@[simp]
theorem push_all_append {α : Type} (v : vector α) (xs ys : List α) :
    push_all v (xs ++ ys) = push_all (push_all v xs) ys :=
  List.foldl_append _ _ _ _

@[simp]
theorem run_vops_append (v : vector Int) (p q : List VOp) :
    run_vops v (p ++ q) = run_vops (run_vops v p) q :=
  List.foldl_append _ _ _ _

@[simp]
theorem ptr_vector_resize_own (v : ptr_vector) :
    (ptr_vector_resize v).own_ptrs = v.own_ptrs := rfl

@[simp]
theorem push_ptr_vector_own (v : ptr_vector) (x : Nat) :
    (push_ptr_vector v x).own_ptrs = v.own_ptrs := by
  unfold push_ptr_vector
  by_cases h : v.size = v.capacity <;> simp [h]

@[simp]
theorem pop_ptr_vector_snd_own (v : ptr_vector) :
    (pop_ptr_vector v).2.own_ptrs = v.own_ptrs := rfl

@[simp]
theorem pop_ptr_vector_snd_size (v : ptr_vector) :
    (pop_ptr_vector v).2.size = (U32_MAX + v.size) % U32_MOD := rfl

@[simp]
theorem pop_ptr_vector_snd_capacity (v : ptr_vector) :
    (pop_ptr_vector v).2.capacity = v.capacity := rfl

@[simp]
theorem pop_ptr_vector_snd_data (v : ptr_vector) :
    (pop_ptr_vector v).2.data = v.data := rfl

@[simp]
theorem pop_ptr_vector_fst (v : ptr_vector) :
    (pop_ptr_vector v).1 = v.data.getD ((U32_MAX + v.size) % U32_MOD) none := rfl

/-! ### Properties of `pow2ceil` -/

@[simp]
theorem pow2ceil_zero : pow2ceil 0 = 1 := by
  simp [pow2ceil, Nat.clog_zero_right]

@[simp]
theorem pow2ceil_one : pow2ceil 1 = 1 := by
  simp [pow2ceil, Nat.clog_one_right]

theorem pow2ceil_pos (n : Nat) : 0 < pow2ceil n :=
  Nat.pos_pow_of_pos _ (by omega)

theorem le_pow2ceil (n : Nat) : n ≤ pow2ceil n :=
  (Nat.le_pow_iff_clog_le (by omega)).mpr le_rfl

/-- While the container is not full, one more push keeps the target
capacity: `pow2ceil` is unchanged by a unit increment below its value. -/
theorem pow2ceil_succ_of_lt {n : Nat} (h : n < pow2ceil n) :
    pow2ceil (n + 1) = pow2ceil n := by
  rcases Nat.eq_zero_or_pos n with rfl | hn
  · simp
  apply le_antisymm
  · exact Nat.pow_le_pow_right (by omega)
      ((Nat.le_pow_iff_clog_le (by omega)).mp (by unfold pow2ceil at h; omega))
  · exact Nat.pow_le_pow_right (by omega) (Nat.clog_mono_right _ (by omega))

/-- When the container is exactly full at a power of two, the target
capacity doubles on the next push. -/
theorem pow2ceil_succ_of_eq {n : Nat} (hn : 0 < n) (h : n = pow2ceil n) :
    pow2ceil (n + 1) = 2 * pow2ceil n := by
  unfold pow2ceil at h ⊢
  set c := Nat.clog 2 n with hc
  have h1 : Nat.clog 2 (n + 1) = c + 1 := by
    apply le_antisymm
    · apply (Nat.le_pow_iff_clog_le (by omega)).mp
      have : (2:Nat) ^ (c + 1) = 2 ^ c + 2 ^ c := by ring
      have hpos : 0 < (2:Nat) ^ c := Nat.pos_pow_of_pos _ (by omega)
      omega
    · have : (2:Nat) ^ c < n + 1 := by omega
      have := (Nat.pow_lt_iff_lt_clog (by omega)).mp this
      omega
  rw [h1]
  ring

/-! ### Closed form for a run of pushes starting from a fresh vector -/

theorem canon_state_fresh : canon_state [] = fresh_int_vector := by
  unfold canon_state fresh_int_vector DEFAULT_CAPACITY
  simp

@[simp]
theorem canon_state_size (xs : List Int) : (canon_state xs).size = xs.length := rfl

@[simp]
theorem canon_state_capacity (xs : List Int) :
    (canon_state xs).capacity = pow2ceil xs.length := rfl

@[simp]
theorem canon_state_data_size (xs : List Int) : (canon_state xs).data_size = 4 := rfl

@[simp]
theorem canon_state_data (xs : List Int) :
    (canon_state xs).data
      = xs.map some ++ List.replicate (pow2ceil xs.length - xs.length) none := rfl

/-- One push moves one canonical state to the next, as long as the
`uint32_t` size increment does not wrap. -/
theorem push_canon (xs : List Int) (x : Int) (hlen : xs.length + 1 < U32_MOD) :
    push_vector (canon_state xs) x = canon_state (xs ++ [x]) := by
  have hnc : xs.length <= pow2ceil xs.length := le_pow2ceil xs.length
  have hpos := pow2ceil_pos xs.length
  by_cases hfull : xs.length = pow2ceil xs.length
  · have hn1 : 0 < xs.length := by omega
    apply vector.ext
    · rw [push_vector_size, canon_state_size, canon_state_size,
        List.length_append, List.length_singleton, Nat.mod_eq_of_lt (by omega)]
    · rw [push_vector_capacity, canon_state_size, canon_state_capacity,
        if_pos hfull, canon_state_capacity, List.length_append,
        List.length_singleton, pow2ceil_succ_of_eq hn1 hfull, ← hfull]
      omega
    · rw [push_vector_data_size, canon_state_data_size, canon_state_data_size]
    · rw [push_vector_data, canon_state_size, canon_state_capacity, if_pos hfull,
        canon_state_data, canon_state_data, List.length_append, List.length_singleton,
        pow2ceil_succ_of_eq hn1 hfull, ← hfull]
      rw [Nat.sub_self, List.replicate]
      rw [List.append_nil]
      unfold copy_slots
      rw [show min xs.length (max 1 (xs.length * 2)) = xs.length from by omega]
      rw [show List.take xs.length (List.map some xs) = List.map some xs from by
        rw [← List.length_map xs some]
        exact List.take_length _]
      rw [show max 1 (xs.length * 2) - xs.length = xs.length from by omega]
      rw [show List.replicate xs.length (none : Option Int)
          = none :: List.replicate (xs.length - 1) none from by
        rw [show xs.length = (xs.length - 1) + 1 from by omega, List.replicate_succ]
        simp]
      rw [set_append_cons_len (xs.map some) none (some x) _ xs.length (by simp)]
      rw [show 2 * xs.length - (xs.length + 1) = xs.length - 1 from by omega]
      simp
  · have hlt : xs.length < pow2ceil xs.length := by omega
    apply vector.ext
    · rw [push_vector_size, canon_state_size, canon_state_size,
        List.length_append, List.length_singleton, Nat.mod_eq_of_lt (by omega)]
    · rw [push_vector_capacity, canon_state_size, canon_state_capacity,
        if_neg hfull, canon_state_capacity, List.length_append,
        List.length_singleton, pow2ceil_succ_of_lt hlt]
    · rw [push_vector_data_size, canon_state_data_size, canon_state_data_size]
    · rw [push_vector_data, canon_state_size, canon_state_capacity, if_neg hfull,
        canon_state_data, canon_state_data, List.length_append, List.length_singleton,
        pow2ceil_succ_of_lt hlt]
      rw [show List.replicate (pow2ceil xs.length - xs.length) (none : Option Int)
          = none :: List.replicate (pow2ceil xs.length - (xs.length + 1)) none from by
        rw [show pow2ceil xs.length - xs.length
            = (pow2ceil xs.length - (xs.length + 1)) + 1 from by omega,
          List.replicate_succ]]
      rw [set_append_cons_len (xs.map some) none (some x) _ xs.length (by simp)]
      simp

/-- Closed form: pushing the elements of `xs` (fewer than 2^32 of them)
into a fresh vector yields the canonical state. -/
theorem push_all_closed (xs : List Int) (h : xs.length < U32_MOD) :
    push_all fresh_int_vector xs = canon_state xs := by
  induction xs using List.reverseRecOn with
  | nil => exact canon_state_fresh.symm
  | append_singleton xs x ih =>
    have hlen : xs.length + 1 < U32_MOD := by
      simpa using h
    rw [push_all_append, ih (by omega)]
    have : push_all (canon_state xs) [x] = push_vector (canon_state xs) x := rfl
    rw [this, push_canon xs x hlen]

/-! ### Behavior of repeated pops -/

@[simp]
theorem pop_vector_snd_data_size {α : Type} (v : vector α) :
    (pop_vector v).2.data_size = v.data_size := rfl

@[simp]
theorem pop_ptr_vector_snd_data_size (v : ptr_vector) :
    (pop_ptr_vector v).2.data_size = v.data_size := rfl

@[simp]
theorem pop_n_zero {α : Type} (v : vector α) : pop_n 0 v = ([], v) := rfl

theorem pop_n_succ {α : Type} (n : Nat) (v : vector α) :
    pop_n (n + 1) v = ((pop_vector v).1 :: (pop_n n (pop_vector v).2).1,
      (pop_n n (pop_vector v).2).2) := rfl

theorem pop_n_add {α : Type} (m n : Nat) (v : vector α) :
    pop_n (m + n) v
      = ((pop_n m v).1 ++ (pop_n n (pop_n m v).2).1, (pop_n n (pop_n m v).2).2) := by
  induction m generalizing v with
  | zero => simp
  | succ m ih =>
      have hm : m + 1 + n = (m + n) + 1 := by omega
      rw [hm, pop_n_succ, pop_n_succ, ih]
      simp

/-- Popping `m` times from a state whose `size` is in `uint32_t` range and
covered by the buffer reads the slots `size - 1, size - 2, ..., size - m`
in that order and just lowers `size` by `m`. -/
theorem pop_n_run {α : Type} (m : Nat) :
    ∀ (n c ds : Nat) (l : List (Option α)), m ≤ n → n < U32_MOD → n ≤ l.length →
    (pop_n m (⟨n, c, ds, l⟩ : vector α)).1 = ((l.drop (n - m)).take m).reverse ∧
      (pop_n m (⟨n, c, ds, l⟩ : vector α)).2 = ⟨n - m, c, ds, l⟩ := by
  induction m with
  | zero =>
      intro n c ds l h1 h2 h3
      constructor
      · simp
      · rw [pop_n_zero, Nat.sub_zero]
  | succ m ih =>
      intro n c ds l h1 h2 h3
      have h0 : 0 < n := by omega
      have hdec : (U32_MAX + n) % U32_MOD = n - 1 := u32_dec_eq n h0 h2
      have hpop : pop_vector (⟨n, c, ds, l⟩ : vector α)
          = (l.getD (n - 1) none, ⟨n - 1, c, ds, l⟩) := by
        unfold pop_vector
        rw [hdec]
      rw [pop_n_succ, hpop]
      obtain ⟨ih1, ih2⟩ := ih (n - 1) c ds l (by omega) (by omega) (by omega)
      have hidx : n - 1 < l.length := by omega
      obtain ⟨a, ha⟩ : ∃ a, l[n - 1]? = some a := ⟨_, List.getElem?_eq_getElem hidx⟩
      constructor
      · show l.getD (n - 1) none :: (pop_n m (⟨n - 1, c, ds, l⟩ : vector α)).1 = _
        rw [ih1]
        have hdp : n - 1 - m = n - (m + 1) := by omega
        rw [hdp]
        rw [List.getD_eq_getElem?_getD, ha]
        rw [List.take_succ]
        rw [List.reverse_append]
        have hd2 : (l.drop (n - (m + 1)))[m]? = l[n - 1]? := by
          rw [List.getElem?_drop]
          congr 1
          omega
        rw [hd2, ha]
        simp
      · show (pop_n m (⟨n - 1, c, ds, l⟩ : vector α)).2 = _
        rw [ih2]
        have hdp : n - 1 - m = n - (m + 1) := by omega
        rw [hdp]

/-! ### The size/capacity invariant along well-formed operation sequences -/

theorem vops_ok_split (p q : List VOp) : ∀ v, vops_ok v (p ++ q) = true →
    vops_ok v p = true := by
  induction p with
  | nil => intro v h; rfl
  | cons op rest ih =>
      intro v h
      cases op with
      | vpush x =>
          rw [List.cons_append] at h
          simp only [vops_ok] at h ⊢
          exact ih _ h
      | vpop =>
          rw [List.cons_append] at h
          simp only [vops_ok, Bool.and_eq_true] at h ⊢
          exact ⟨h.1, ih _ h.2⟩

theorem vop_step_inv (v : vector Int) (op : VOp)
    (h1 : v.size ≤ v.capacity) (h2 : v.size < U32_MOD)
    (hp : op = VOp.vpop → 0 < v.size) :
    (vop_step v op).size ≤ (vop_step v op).capacity ∧
      (vop_step v op).size < U32_MOD := by
  have hMpos : 0 < U32_MOD := U32_MOD_pos
  cases op with
  | vpush x =>
      rw [show vop_step v (VOp.vpush x) = push_vector v x from rfl]
      rw [push_vector_size, push_vector_capacity]
      have hmodle : (v.size + 1) % U32_MOD ≤ v.size + 1 := Nat.mod_le _ _
      have hmodlt : (v.size + 1) % U32_MOD < U32_MOD := Nat.mod_lt _ hMpos
      by_cases hfull : v.size = v.capacity
      · rw [if_pos hfull]
        have hm1 : 1 ≤ max 1 (v.capacity * 2) := le_max_left _ _
        have hm2 : v.capacity * 2 ≤ max 1 (v.capacity * 2) := le_max_right _ _
        omega
      · rw [if_neg hfull]
        omega
  | vpop =>
      have h0 : 0 < v.size := hp rfl
      rw [show vop_step v VOp.vpop = (pop_vector v).2 from rfl]
      rw [pop_vector_snd_size, pop_vector_snd_capacity, u32_dec_eq v.size h0 h2]
      omega

theorem run_vops_inv (ops : List VOp) : ∀ v : vector Int,
    v.size ≤ v.capacity → v.size < U32_MOD → vops_ok v ops = true →
    (run_vops v ops).size ≤ (run_vops v ops).capacity ∧
      (run_vops v ops).size < U32_MOD := by
  induction ops with
  | nil => intro v h1 h2 h3; exact ⟨h1, h2⟩
  | cons op rest ih =>
      intro v h1 h2 h3
      cases op with
      | vpush x =>
          simp only [vops_ok] at h3
          have hstep := vop_step_inv v (VOp.vpush x) h1 h2 (by intro hc; cases hc)
          exact ih _ hstep.1 hstep.2 h3
      | vpop =>
          simp only [vops_ok, Bool.and_eq_true, decide_eq_true_eq] at h3
          have hstep := vop_step_inv v VOp.vpop h1 h2 (fun _ => h3.1)
          exact ih _ hstep.1 hstep.2 h3.2

/-! ### Further numeric helpers for the boundary analyses -/

theorem clog2_u32max_le : Nat.clog 2 4294967295 ≤ 32 :=
  (Nat.le_pow_iff_clog_le (by omega)).mp (by norm_num)

theorem clog2_u32max_gt : 31 < Nat.clog 2 4294967295 :=
  (Nat.pow_lt_iff_lt_clog (by omega)).mp (by norm_num)

theorem clog2_u32max : Nat.clog 2 4294967295 = 32 := by
  have h1 := clog2_u32max_le
  have h2 := clog2_u32max_gt
  omega

theorem pow2ceil_eq_of_clog (n k : Nat) (h : Nat.clog 2 n = k) :
    pow2ceil n = 2 ^ k := by
  unfold pow2ceil
  rw [h]

theorem pow2ceil_u32max : pow2ceil 4294967295 = 4294967296 := by
  rw [pow2ceil_eq_of_clog 4294967295 32 clog2_u32max]
  norm_num

theorem nodup_count_one {α : Type} [BEq α] [LawfulBEq α] (l : List α) (a : α)
    (h : l.Nodup) (hm : a ∈ l) : l.count a = 1 := by
  induction l with
  | nil => cases hm
  | cons b t ih =>
      rw [List.count_cons]
      rcases List.mem_cons.mp hm with rfl | hmem
      · rw [List.count_eq_zero.mpr (List.nodup_cons.mp h).1]
        simp
      · rw [ih (List.nodup_cons.mp h).2 hmem]
        have hne : ¬ (b == a) = true := by
          intro hb
          have hba : b = a := eq_of_beq hb
          subst hba
          exact (List.nodup_cons.mp h).1 hmem
        simp [hne]

/-! ### Claim theorems -/

/-- C1 (amended): for every list of fewer than 2^32 values pushed into a
freshly constructed vector (so that the `uint32_t` size field never wraps),
the resulting capacity is 1 when no value is pushed, and otherwise the
least power of two at least the number of values pushed.  The bound is
forced by the 32-bit size field: see the counterexample at 2^32 + 1. -/
theorem doubling_law (xs : List Int) (h : xs.length < U32_MOD) :
    (xs.length = 0 → (push_all fresh_int_vector xs).capacity = 1) ∧
    (1 ≤ xs.length →
      IsLeastPow2GE (push_all fresh_int_vector xs).capacity xs.length) := by
  rw [push_all_closed xs h, canon_state_capacity]
  constructor
  · intro h0
    rw [h0]
    exact pow2ceil_zero
  · intro h1
    refine ⟨⟨Nat.clog 2 xs.length, rfl⟩, le_pow2ceil _, ?_⟩
    rintro m ⟨k, rfl⟩ hm
    exact Nat.pow_le_pow_right (by omega) ((Nat.le_pow_iff_clog_le (by omega)).mp hm)

/-- Witness for C1 at the spec scenario `push 1, 2, 3`. -/
theorem doubling_law_witness :
    ([(1:Int), 2, 3].length < U32_MOD) ∧
    (([(1:Int), 2, 3].length = 0 →
        (push_all fresh_int_vector [(1:Int), 2, 3]).capacity = 1) ∧
      (1 ≤ [(1:Int), 2, 3].length →
        IsLeastPow2GE (push_all fresh_int_vector [(1:Int), 2, 3]).capacity
          [(1:Int), 2, 3].length)) :=
  ⟨by decide, doubling_law [(1:Int), 2, 3] (by decide)⟩

/-- C1 counterexample: the claim quantifies over every number of pushes,
but after 2^32 + 1 pushes the capacity is 2^32 (the 2^32-nd increment of
the `uint32_t` size field wrapped it to 0, so the 2^32+1-st push sees a
non-full vector), which is not the least power of two at least 2^32 + 1. -/
theorem doubling_law_cex :
    ¬ IsLeastPow2GE
        (push_all fresh_int_vector (List.replicate 4294967297 (0:Int))).capacity
        (List.replicate 4294967297 (0:Int)).length := by
  have hsplit : List.replicate 4294967297 (0:Int)
      = List.replicate 4294967295 0 ++ [0, 0] := by
    rw [show (4294967297:Nat) = 4294967295 + 2 from by norm_num, List.replicate_add]
    rfl
  rw [hsplit, push_all_append]
  rw [push_all_closed _ (by rw [List.length_replicate]; unfold U32_MOD; omega)]
  have hstep : push_all (canon_state (List.replicate 4294967295 (0:Int))) [0, 0]
      = push_vector (push_vector (canon_state (List.replicate 4294967295 0)) 0) 0 := rfl
  rw [hstep]
  have hlen : (List.replicate 4294967295 (0:Int)).length = 4294967295 :=
    List.length_replicate _ _
  have hc1 : (push_vector (canon_state (List.replicate 4294967295 (0:Int))) 0).capacity
      = 4294967296 := by
    rw [push_vector_capacity, canon_state_size, canon_state_capacity, hlen,
      pow2ceil_u32max, if_neg (by omega)]
  have hs1 : (push_vector (canon_state (List.replicate 4294967295 (0:Int))) 0).size
      = 0 := by
    rw [push_vector_size, canon_state_size, hlen]
    unfold U32_MOD
    norm_num
  have hc2 : (push_vector (push_vector (canon_state (List.replicate 4294967295 (0:Int))) 0)
      0).capacity = 4294967296 := by
    rw [push_vector_capacity, hs1, hc1, if_neg (by omega)]
  rw [hc2, List.length_append, List.length_replicate,
    show ([0, 0] : List Int).length = 2 from rfl]
  rintro ⟨-, hle, -⟩
  omega

/-- C2 (amended): pushing `v1, ..., vk` (1 ≤ k < 2^32, so that the
`uint32_t` size field never wraps) into a fresh vector and popping `k`
times yields `vk, ..., v1` in that order.  The bound is forced by the
32-bit size field: see the counterexample at k = 2^32 + 1. -/
theorem stack_semantics (xs : List Int) (_h1 : 1 ≤ xs.length)
    (h2 : xs.length < U32_MOD) :
    (pop_n xs.length (push_all fresh_int_vector xs)).1 = (xs.reverse).map some := by
  rw [push_all_closed xs h2]
  rw [show canon_state xs = (⟨xs.length, pow2ceil xs.length, 4,
      xs.map some ++ List.replicate (pow2ceil xs.length - xs.length) none⟩ :
      vector Int) from rfl]
  obtain ⟨h4, -⟩ := pop_n_run xs.length xs.length (pow2ceil xs.length) 4
    (xs.map some ++ List.replicate (pow2ceil xs.length - xs.length) none)
    le_rfl h2 (by
      rw [List.length_append, List.length_map, List.length_replicate]
      have := le_pow2ceil xs.length
      omega)
  rw [h4, Nat.sub_self, List.drop_zero]
  rw [List.take_left' (by rw [List.length_map])]
  rw [List.map_reverse]

/-- Witness for C2 at the spec scenario `push 1, 2, 3; pop; pop; pop`. -/
theorem stack_semantics_witness :
    (1 ≤ [(1:Int), 2, 3].length) ∧ ([(1:Int), 2, 3].length < U32_MOD) ∧
    (pop_n [(1:Int), 2, 3].length (push_all fresh_int_vector [(1:Int), 2, 3])).1
      = (([(1:Int), 2, 3].reverse).map some) :=
  ⟨by decide, by decide, stack_semantics [(1:Int), 2, 3] (by decide) (by decide)⟩

/-- C3 (amended): along any operation sequence from a fresh vector in
which every pop is applied to a nonempty vector, `size ≤ capacity` holds
after every step (stated for every decomposition `ops = p ++ q` of the
sequence, i.e. after every step of `ops`).  The restriction on pops is
forced by the unchecked `vect->size--`: see the counterexample. -/
theorem capacity_invariant (ops p q : List VOp) (hsplit : ops = p ++ q)
    (hok : vops_ok fresh_int_vector ops = true) :
    (run_vops fresh_int_vector p).size ≤ (run_vops fresh_int_vector p).capacity := by
  subst hsplit
  exact (run_vops_inv p fresh_int_vector (by decide) (by decide)
    (vops_ok_split p q _ hok)).1

/-- Witness for C3 on the sequence `push 5; pop; push 7`, checked after
the second operation. -/
theorem capacity_invariant_witness :
    ([VOp.vpush 5, VOp.vpop, VOp.vpush 7]
        = [VOp.vpush 5, VOp.vpop] ++ [VOp.vpush 7]) ∧
    (vops_ok fresh_int_vector [VOp.vpush 5, VOp.vpop, VOp.vpush 7] = true) ∧
    (run_vops fresh_int_vector [VOp.vpush 5, VOp.vpop]).size
      ≤ (run_vops fresh_int_vector [VOp.vpush 5, VOp.vpop]).capacity :=
  ⟨by decide, by decide,
    capacity_invariant [VOp.vpush 5, VOp.vpop, VOp.vpush 7]
      [VOp.vpush 5, VOp.vpop] [VOp.vpush 7] (by decide) (by decide)⟩

/-- C3 counterexample: the claim quantifies over all sequences of pushes
and pops, but a single pop on the fresh (empty) vector wraps the
`uint32_t` size field to 4294967295 > capacity = 1. -/
theorem capacity_invariant_cex :
    ¬ ((run_vops fresh_int_vector [VOp.vpop]).size
        ≤ (run_vops fresh_int_vector [VOp.vpop]).capacity) := by
  decide

/-- C9: popping from a vector with `size = 0` decrements the `uint32_t`
size field modulo 2^32, leaving `size = 4294967295`; whenever the capacity
is below 4294967295 (any reachable capacity), this breaks the
`size ≤ capacity` invariant.  No check or error is performed: `pop` is
total and unconditional. -/
theorem pop_empty_underflow (v : vector Int) (h0 : v.size = 0) :
    (pop_vector v).2.size = 4294967295 ∧
      (v.capacity < 4294967295 →
        ¬ ((pop_vector v).2.size ≤ (pop_vector v).2.capacity)) := by
  have hs : (pop_vector v).2.size = 4294967295 := by
    rw [pop_vector_snd_size, h0]
    unfold U32_MAX U32_MOD
    norm_num
  refine ⟨hs, ?_⟩
  intro hcap hle
  rw [hs, pop_vector_snd_capacity] at hle
  omega

/-- Witness for C9 on the fresh vector. -/
theorem pop_empty_underflow_witness :
    (fresh_int_vector.size = 0) ∧
    ((pop_vector fresh_int_vector).2.size = 4294967295 ∧
      (fresh_int_vector.capacity < 4294967295 →
        ¬ ((pop_vector fresh_int_vector).2.size
            ≤ (pop_vector fresh_int_vector).2.capacity))) :=
  ⟨rfl, pop_empty_underflow fresh_int_vector rfl⟩

/-- C5: on any well-formed vector (value or pointer variant) with
`size > 0`, pop decrements `size` by exactly one, returns the element
stored at the old index `size - 1` (which is initialized, hence `isSome`),
leaves the buffer and the capacity untouched (nothing is zeroed or freed),
and leaves `size < capacity`, so a subsequent push can reuse the slot
without growing. -/
theorem pop_postcondition (v : vector Int) (w : ptr_vector)
    (hv : vector_wf v) (hvs : 0 < v.size)
    (hw : ptr_vector_wf w) (hws : 0 < w.size) :
    ((pop_vector v).2.size = v.size - 1 ∧
      (pop_vector v).1 = v.data.getD (v.size - 1) none ∧
      ((pop_vector v).1).isSome = true ∧
      (pop_vector v).2.data = v.data ∧
      (pop_vector v).2.capacity = v.capacity ∧
      (pop_vector v).2.size < (pop_vector v).2.capacity) ∧
    ((pop_ptr_vector w).2.size = w.size - 1 ∧
      (pop_ptr_vector w).1 = w.data.getD (w.size - 1) none ∧
      ((pop_ptr_vector w).1).isSome = true ∧
      (pop_ptr_vector w).2.data = w.data ∧
      (pop_ptr_vector w).2.capacity = w.capacity ∧
      (pop_ptr_vector w).2.size < (pop_ptr_vector w).2.capacity) := by
  obtain ⟨hv1, hv2, hv3, hv4, hv5⟩ := hv
  obtain ⟨hw1, hw2, hw3, hw4, hw5⟩ := hw
  have hvd := u32_dec_eq v.size hvs hv2
  have hwd := u32_dec_eq w.size hws hw2
  refine ⟨⟨?_, ?_, ?_, rfl, rfl, ?_⟩, ⟨?_, ?_, ?_, rfl, rfl, ?_⟩⟩
  · rw [pop_vector_snd_size, hvd]
  · rw [pop_vector_fst, hvd]
  · rw [pop_vector_fst, hvd]
    exact hv5 (v.size - 1) (by omega)
  · rw [pop_vector_snd_size, pop_vector_snd_capacity, hvd]
    omega
  · rw [pop_ptr_vector_snd_size, hwd]
  · rw [pop_ptr_vector_fst, hwd]
  · rw [pop_ptr_vector_fst, hwd]
    exact hw5 (w.size - 1) (by omega)
  · rw [pop_ptr_vector_snd_size, pop_ptr_vector_snd_capacity, hwd]
    omega

/-- Witness for C5 on one-element containers. -/
theorem pop_postcondition_witness :
    vector_wf (⟨1, 1, 4, [some 5]⟩ : vector Int) ∧
    (0 < (⟨1, 1, 4, [some 5]⟩ : vector Int).size) ∧
    ptr_vector_wf (⟨1, 1, 4, [some 100], true⟩ : ptr_vector) ∧
    (0 < (⟨1, 1, 4, [some 100], true⟩ : ptr_vector).size) ∧
    (((pop_vector (⟨1, 1, 4, [some 5]⟩ : vector Int)).2.size
          = (⟨1, 1, 4, [some 5]⟩ : vector Int).size - 1 ∧
        (pop_vector (⟨1, 1, 4, [some 5]⟩ : vector Int)).1
          = (⟨1, 1, 4, [some 5]⟩ : vector Int).data.getD
              ((⟨1, 1, 4, [some 5]⟩ : vector Int).size - 1) none ∧
        ((pop_vector (⟨1, 1, 4, [some 5]⟩ : vector Int)).1).isSome = true ∧
        (pop_vector (⟨1, 1, 4, [some 5]⟩ : vector Int)).2.data
          = (⟨1, 1, 4, [some 5]⟩ : vector Int).data ∧
        (pop_vector (⟨1, 1, 4, [some 5]⟩ : vector Int)).2.capacity
          = (⟨1, 1, 4, [some 5]⟩ : vector Int).capacity ∧
        (pop_vector (⟨1, 1, 4, [some 5]⟩ : vector Int)).2.size
          < (pop_vector (⟨1, 1, 4, [some 5]⟩ : vector Int)).2.capacity) ∧
      ((pop_ptr_vector (⟨1, 1, 4, [some 100], true⟩ : ptr_vector)).2.size
          = (⟨1, 1, 4, [some 100], true⟩ : ptr_vector).size - 1 ∧
        (pop_ptr_vector (⟨1, 1, 4, [some 100], true⟩ : ptr_vector)).1
          = (⟨1, 1, 4, [some 100], true⟩ : ptr_vector).data.getD
              ((⟨1, 1, 4, [some 100], true⟩ : ptr_vector).size - 1) none ∧
        ((pop_ptr_vector (⟨1, 1, 4, [some 100], true⟩ : ptr_vector)).1).isSome = true ∧
        (pop_ptr_vector (⟨1, 1, 4, [some 100], true⟩ : ptr_vector)).2.data
          = (⟨1, 1, 4, [some 100], true⟩ : ptr_vector).data ∧
        (pop_ptr_vector (⟨1, 1, 4, [some 100], true⟩ : ptr_vector)).2.capacity
          = (⟨1, 1, 4, [some 100], true⟩ : ptr_vector).capacity ∧
        (pop_ptr_vector (⟨1, 1, 4, [some 100], true⟩ : ptr_vector)).2.size
          < (pop_ptr_vector (⟨1, 1, 4, [some 100], true⟩ : ptr_vector)).2.capacity)) :=
  ⟨by decide, by decide, by decide, by decide,
    pop_postcondition ⟨1, 1, 4, [some 5]⟩ ⟨1, 1, 4, [some 100], true⟩
      (by decide) (by decide) (by decide) (by decide)⟩

/-- C6: pushing onto a well-formed full vector (`size = capacity`)
triggers growth, copies the first `size` slots verbatim into the fresh
buffer (elements at indices `[0, size)` are unchanged), writes the new
value at index `size`, sets the capacity to `max 1 (capacity * 2)` and
only then increments `size`. -/
theorem growth_preserves_contents (v : vector Int) (x : Int)
    (hwf : vector_wf v) (hfull : v.size = v.capacity) :
    (push_vector v x).data.take v.size = v.data.take v.size ∧
      (push_vector v x).data.getD v.size none = some x ∧
      (push_vector v x).capacity = max 1 (v.capacity * 2) ∧
      (push_vector v x).size = (v.size + 1) % U32_MOD := by
  obtain ⟨h1, h2, h2c, h3, h4⟩ := hwf
  have hdata := push_vector_data v x
  rw [if_pos hfull] at hdata
  have hm1 : 1 ≤ max 1 (v.capacity * 2) := le_max_left _ _
  have hm2 : v.capacity * 2 ≤ max 1 (v.capacity * 2) := le_max_right _ _
  have hsz : v.size < max 1 (v.capacity * 2) := by omega
  refine ⟨?_, ?_, ?_, ?_⟩
  · rw [hdata, take_set_of_le _ _ _ _ le_rfl]
    unfold copy_slots
    rw [show min v.size (max 1 (v.capacity * 2)) = v.size from by omega]
    rw [List.take_left' (by rw [List.length_take]; omega)]
  · rw [hdata]
    have hlen2 : v.size < (copy_slots v.data v.size (max 1 (v.capacity * 2))).length := by
      unfold copy_slots
      rw [List.length_append, List.length_take, List.length_replicate]
      omega
    rw [List.getD_eq_getElem?_getD, List.getElem?_set_self hlen2]
    rfl
  · rw [push_vector_capacity, if_pos hfull]
  · rw [push_vector_size]

/-- Witness for C6 on a full one-element vector. -/
theorem growth_preserves_contents_witness :
    vector_wf (⟨1, 1, 4, [some 7]⟩ : vector Int) ∧
    ((⟨1, 1, 4, [some 7]⟩ : vector Int).size
      = (⟨1, 1, 4, [some 7]⟩ : vector Int).capacity) ∧
    ((push_vector (⟨1, 1, 4, [some 7]⟩ : vector Int) 9).data.take
          (⟨1, 1, 4, [some 7]⟩ : vector Int).size
        = (⟨1, 1, 4, [some 7]⟩ : vector Int).data.take
            (⟨1, 1, 4, [some 7]⟩ : vector Int).size ∧
      (push_vector (⟨1, 1, 4, [some 7]⟩ : vector Int) 9).data.getD
          (⟨1, 1, 4, [some 7]⟩ : vector Int).size none = some 9 ∧
      (push_vector (⟨1, 1, 4, [some 7]⟩ : vector Int) 9).capacity
        = max 1 ((⟨1, 1, 4, [some 7]⟩ : vector Int).capacity * 2) ∧
      (push_vector (⟨1, 1, 4, [some 7]⟩ : vector Int) 9).size
        = ((⟨1, 1, 4, [some 7]⟩ : vector Int).size + 1) % U32_MOD) :=
  ⟨by decide, rfl,
    growth_preserves_contents ⟨1, 1, 4, [some 7]⟩ 9 (by decide) rfl⟩

/-- C10: on a well-formed vector with `size ≥ 1`, popping the stored value
and pushing it back restores the exact prior state (same `size`, same
`capacity`, identical buffer); the intervening push cannot grow because
the pop left `size < capacity`. -/
theorem pop_push_roundtrip (v : vector Int) (x : Int)
    (hwf : vector_wf v) (h1 : 0 < v.size) (hx : (pop_vector v).1 = some x) :
    push_vector (pop_vector v).2 x = v ∧
      (pop_vector v).2.size < (pop_vector v).2.capacity := by
  obtain ⟨hc1, hc2, hc2c, hc3, hc4⟩ := hwf
  have hdec := u32_dec_eq v.size h1 hc2
  have hs : (pop_vector v).2.size = v.size - 1 := by
    rw [pop_vector_snd_size, hdec]
  have hxv : v.data[v.size - 1]? = some (some x) := by
    rw [pop_vector_fst, hdec, List.getD_eq_getElem?_getD] at hx
    cases hgt : v.data[v.size - 1]? with
    | none => rw [hgt] at hx; simp at hx
    | some o =>
        rw [hgt] at hx
        simp at hx
        rw [hx]
  constructor
  · apply vector.ext
    · rw [push_vector_size, hs, show v.size - 1 + 1 = v.size from by omega,
        Nat.mod_eq_of_lt hc2]
    · rw [push_vector_capacity, hs, pop_vector_snd_capacity,
        if_neg (by omega)]
    · rw [push_vector_data_size]
      exact pop_vector_snd_data_size v
    · rw [push_vector_data, hs, pop_vector_snd_capacity, pop_vector_snd_data,
        if_neg (by omega)]
      exact set_getElem_self v.data (v.size - 1) (some x) hxv
  · rw [hs, pop_vector_snd_capacity]
    omega

/-- Witness for C10 on a one-element vector. -/
theorem pop_push_roundtrip_witness :
    vector_wf (⟨1, 1, 4, [some 5]⟩ : vector Int) ∧
    (0 < (⟨1, 1, 4, [some 5]⟩ : vector Int).size) ∧
    ((pop_vector (⟨1, 1, 4, [some 5]⟩ : vector Int)).1 = some 5) ∧
    (push_vector (pop_vector (⟨1, 1, 4, [some 5]⟩ : vector Int)).2 5
        = (⟨1, 1, 4, [some 5]⟩ : vector Int) ∧
      (pop_vector (⟨1, 1, 4, [some 5]⟩ : vector Int)).2.size
        < (pop_vector (⟨1, 1, 4, [some 5]⟩ : vector Int)).2.capacity) :=
  ⟨by decide, by decide, by decide,
    pop_push_roundtrip ⟨1, 1, 4, [some 5]⟩ 5 (by decide) (by decide) (by decide)⟩

/-- C4: deleting a well-formed pointer container whose live entries are
distinct frees exactly the referents at indices `[0, size)` when
`own_ptrs` is true — in index order, each exactly once, and never a
referent just removed by a pop — and frees no referent at all when
`own_ptrs` is false; in both cases the backing buffer is released. -/
theorem delete_ownership (v : ptr_vector) (hwf : ptr_vector_wf v)
    (hnd : (v.data.take v.size).Nodup) :
    (v.own_ptrs = true →
      (delete_ptr_vector v).freed_referents = v.data.take v.size ∧
      (∀ p : Nat, some p ∈ v.data.take v.size →
        ((delete_ptr_vector v).freed_referents).count (some p) = 1) ∧
      (∀ (x : Nat) (w : ptr_vector), pop_ptr_vector v = (some x, w) →
        some x ∉ (delete_ptr_vector w).freed_referents)) ∧
    (v.own_ptrs = false → (delete_ptr_vector v).freed_referents = []) ∧
    (delete_ptr_vector v).buffer_released = true := by
  obtain ⟨h1, h2, h2c, h3, h4⟩ := hwf
  refine ⟨?_, ?_, rfl⟩
  · intro hown
    have hf : (delete_ptr_vector v).freed_referents = v.data.take v.size := by
      simp [delete_ptr_vector, hown]
    refine ⟨hf, ?_, ?_⟩
    · intro p hp
      rw [hf]
      exact nodup_count_one _ _ hnd hp
    · intro x w hpop
      by_cases hsz : v.size = 0
      · exfalso
        have hnone : (pop_ptr_vector v).1 = none := by
          rw [pop_ptr_vector_fst, hsz,
            show (U32_MAX + 0) % U32_MOD = U32_MAX from by
              unfold U32_MAX U32_MOD
              norm_num,
            List.getD_eq_getElem?_getD,
            List.getElem?_eq_none (by
              rw [h3]
              unfold U32_MAX U32_MOD at *
              omega)]
          rfl
        rw [hpop] at hnone
        simp at hnone
      · have h0 : 0 < v.size := by omega
        have hdec := u32_dec_eq v.size h0 h2
        have hw : w = (pop_ptr_vector v).2 := by rw [hpop]
        have hx2 : (pop_ptr_vector v).1 = some x := by rw [hpop]
        have hfw : (delete_ptr_vector w).freed_referents
            = v.data.take (v.size - 1) := by
          rw [hw]
          simp [delete_ptr_vector, hown, hdec]
        rw [hfw]
        have hxv : v.data[v.size - 1]? = some (some x) := by
          rw [pop_ptr_vector_fst, hdec, List.getD_eq_getElem?_getD] at hx2
          cases hgt : v.data[v.size - 1]? with
          | none => rw [hgt] at hx2; simp at hx2
          | some o =>
              rw [hgt] at hx2
              simp at hx2
              rw [hx2]
        have htake : v.data.take v.size = v.data.take (v.size - 1) ++ [some x] := by
          rw [show v.size = (v.size - 1) + 1 from by omega, List.take_succ,
            show v.size - 1 + 1 - 1 = v.size - 1 from by omega, hxv]
          rfl
        rw [htake] at hnd
        intro hmem
        exact (List.disjoint_of_nodup_append hnd) hmem (List.mem_singleton_self _)
  · intro hown
    simp [delete_ptr_vector, hown]

/-- Witness for C4 on an owning container of two distinct referents. -/
theorem delete_ownership_witness :
    ptr_vector_wf (⟨2, 2, 4, [some 100, some 200], true⟩ : ptr_vector) ∧
    ((⟨2, 2, 4, [some 100, some 200], true⟩ : ptr_vector).data.take
        (⟨2, 2, 4, [some 100, some 200], true⟩ : ptr_vector).size).Nodup ∧
    (((⟨2, 2, 4, [some 100, some 200], true⟩ : ptr_vector).own_ptrs = true →
        (delete_ptr_vector (⟨2, 2, 4, [some 100, some 200], true⟩ : ptr_vector)).freed_referents
          = (⟨2, 2, 4, [some 100, some 200], true⟩ : ptr_vector).data.take
              (⟨2, 2, 4, [some 100, some 200], true⟩ : ptr_vector).size ∧
        (∀ p : Nat,
          some p ∈ (⟨2, 2, 4, [some 100, some 200], true⟩ : ptr_vector).data.take
              (⟨2, 2, 4, [some 100, some 200], true⟩ : ptr_vector).size →
          ((delete_ptr_vector
              (⟨2, 2, 4, [some 100, some 200], true⟩ : ptr_vector)).freed_referents).count
            (some p) = 1) ∧
        (∀ (x : Nat) (w : ptr_vector),
          pop_ptr_vector (⟨2, 2, 4, [some 100, some 200], true⟩ : ptr_vector)
              = (some x, w) →
          some x ∉ (delete_ptr_vector w).freed_referents)) ∧
      ((⟨2, 2, 4, [some 100, some 200], true⟩ : ptr_vector).own_ptrs = false →
        (delete_ptr_vector
            (⟨2, 2, 4, [some 100, some 200], true⟩ : ptr_vector)).freed_referents = []) ∧
      (delete_ptr_vector
          (⟨2, 2, 4, [some 100, some 200], true⟩ : ptr_vector)).buffer_released = true) :=
  ⟨by decide, by decide,
    delete_ownership ⟨2, 2, 4, [some 100, some 200], true⟩ (by decide) (by decide)⟩

/-- C7 counterexample: the generated constructor does not propagate an
allocation-failure condition: on allocator failure it unconditionally
writes the function-pointer table through the returned pointer, so the
failure path is undefined behavior (a null-pointer dereference), not a
reported failure. -/
theorem construction_failure_cex :
    new_int_vector Alloc.failure = CtorOutcome.undefined_behavior ∧
      new_int_vector Alloc.failure ≠ CtorOutcome.alloc_failure :=
  ⟨rfl, by decide⟩

/-- C7 (amended): if the underlying allocator cannot satisfy the
construction request, no failure condition reaches the caller: the
generated constructors (value and pointer variant) dereference the failed
`new_vector` result unconditionally, which is undefined behavior; the
allocation failure itself surfaces only as `new_vector` producing no
container. -/
theorem construction_failure_unchecked :
    new_int_vector Alloc.failure = CtorOutcome.undefined_behavior ∧
      new_char_ptr_vector true Alloc.failure = CtorOutcome.undefined_behavior ∧
      new_char_ptr_vector false Alloc.failure = CtorOutcome.undefined_behavior ∧
      new_vector Int 4 Alloc.failure = none :=
  ⟨rfl, rfl, rfl, rfl⟩

/-- C8: every freshly (successfully) constructed container has `size = 0`
and capacity `DEFAULT_CAPACITY = 1`, with a buffer of exactly one slot;
for the pointer variant the `own_ptrs` flag equals the boolean passed at
construction, and neither push nor pop ever changes it. -/
theorem construction_postcondition :
    DEFAULT_CAPACITY = 1 ∧
    new_int_vector Alloc.success = CtorOutcome.ok fresh_int_vector ∧
    fresh_int_vector.size = 0 ∧
    fresh_int_vector.capacity = DEFAULT_CAPACITY ∧
    fresh_int_vector.data.length = DEFAULT_CAPACITY ∧
    (∀ own : Bool,
      new_char_ptr_vector own Alloc.success = CtorOutcome.ok (fresh_ptr_vector own) ∧
      (fresh_ptr_vector own).size = 0 ∧
      (fresh_ptr_vector own).capacity = DEFAULT_CAPACITY ∧
      (fresh_ptr_vector own).data.length = DEFAULT_CAPACITY ∧
      (fresh_ptr_vector own).own_ptrs = own) ∧
    (∀ (w : ptr_vector) (y : Nat), (push_ptr_vector w y).own_ptrs = w.own_ptrs) ∧
    (∀ w : ptr_vector, (pop_ptr_vector w).2.own_ptrs = w.own_ptrs) :=
  ⟨rfl, rfl, rfl, rfl, rfl,
    fun _ => ⟨rfl, rfl, rfl, rfl, rfl⟩,
    fun w y => push_ptr_vector_own w y,
    fun w => pop_ptr_vector_snd_own w⟩

theorem pop_n_one {α : Type} (v : vector α) :
    pop_n 1 v = ([(pop_vector v).1], (pop_vector v).2) := rfl

/-- C2 counterexample: the claim quantifies over every k ≥ 1, but pushing
2^32 + 1 values and popping 2^32 + 1 times does not return them in
reverse order: the 2^32-nd size increment wrapped the `uint32_t` size
field to 0, so the last value overwrote slot 0, and the final pop returns
that value instead of the first one pushed.  Concretely, for 2^32 zeros
followed by a single 1, the pops return the 1 twice (first and last) and
only 2^32 - 1 of the zeros. -/
theorem stack_semantics_cex :
    (pop_n (List.replicate 4294967296 (0:Int) ++ [1]).length
        (push_all fresh_int_vector (List.replicate 4294967296 (0:Int) ++ [1]))).1
      ≠ (((List.replicate 4294967296 (0:Int) ++ [1]).reverse).map some) := by
  intro heq
  have hlen : (List.replicate 4294967296 (0:Int) ++ [1]).length = 4294967297 := by
    rw [List.length_append, List.length_replicate]
    rfl
  have hxs : List.replicate 4294967296 (0:Int) ++ [1]
      = List.replicate 4294967295 0 ++ [0, 1] := by
    rw [show (4294967296:Nat) = 4294967295 + 1 from by norm_num, List.replicate_succ',
      List.append_assoc]
    rfl
  have hcanonA : canon_state (List.replicate 4294967295 (0:Int))
      = ⟨4294967295, 4294967296, 4, List.replicate 4294967295 (some 0) ++ [none]⟩ := by
    apply vector.ext
    · rw [canon_state_size, List.length_replicate]
    · rw [canon_state_capacity, List.length_replicate, pow2ceil_u32max]
    · rw [canon_state_data_size]
    · rw [canon_state_data, List.length_replicate, pow2ceil_u32max, List.map_replicate]
      rw [show (4294967296:Nat) - 4294967295 = 1 from by norm_num]
      rfl
  have hT : push_vector
      (⟨4294967295, 4294967296, 4, List.replicate 4294967295 (some (0:Int)) ++ [none]⟩ :
        vector Int) 0
      = ⟨0, 4294967296, 4, List.replicate 4294967296 (some 0)⟩ := by
    apply vector.ext
    · rw [push_vector_size]
      show (4294967295 + 1) % U32_MOD = 0
      unfold U32_MOD
      norm_num
    · rw [push_vector_capacity]
      show (if (4294967295:Nat) = 4294967296
          then max 1 (4294967296 * 2) else 4294967296) = 4294967296
      rw [if_neg (by omega)]
    · rw [push_vector_data_size]
    · rw [push_vector_data]
      show (if (4294967295:Nat) = 4294967296
          then copy_slots (List.replicate 4294967295 (some (0:Int)) ++ [none])
            4294967295 (max 1 (4294967296 * 2))
          else List.replicate 4294967295 (some (0:Int)) ++ [none]).set
            4294967295 (some 0)
        = List.replicate 4294967296 (some (0:Int))
      rw [if_neg (by omega)]
      rw [set_append_cons_len (List.replicate 4294967295 (some (0:Int))) none (some 0)
        [] 4294967295 (List.length_replicate _ _)]
      rw [show List.replicate 4294967296 (some (0:Int))
          = List.replicate 4294967295 (some 0) ++ [some 0] from by
        rw [show (4294967296:Nat) = 4294967295 + 1 from by norm_num,
          List.replicate_succ']]
  have hF : push_vector
      (⟨0, 4294967296, 4, List.replicate 4294967296 (some (0:Int))⟩ : vector Int) 1
      = ⟨1, 4294967296, 4, some 1 :: List.replicate 4294967295 (some 0)⟩ := by
    apply vector.ext
    · rw [push_vector_size]
      show (0 + 1) % U32_MOD = 1
      unfold U32_MOD
      norm_num
    · rw [push_vector_capacity]
      show (if (0:Nat) = 4294967296
          then max 1 (4294967296 * 2) else 4294967296) = 4294967296
      rw [if_neg (by omega)]
    · rw [push_vector_data_size]
    · rw [push_vector_data]
      show (if (0:Nat) = 4294967296
          then copy_slots (List.replicate 4294967296 (some (0:Int))) 0
            (max 1 (4294967296 * 2))
          else List.replicate 4294967296 (some (0:Int))).set 0 (some 1)
        = some 1 :: List.replicate 4294967295 (some 0)
      rw [if_neg (by omega)]
      rw [show List.replicate 4294967296 (some (0:Int))
          = some 0 :: List.replicate 4294967295 (some 0) from by
        rw [show (4294967296:Nat) = 4294967295 + 1 from by norm_num,
          List.replicate_succ]]
      rw [List.set_cons_zero]
  have hmod01 : (U32_MAX + 1) % U32_MOD = 0 := by
    unfold U32_MAX U32_MOD
    norm_num
  have hmod00 : (U32_MAX + 0) % U32_MOD = 4294967295 := by
    unfold U32_MAX U32_MOD
    norm_num
  have hp1f : (pop_vector (⟨1, 4294967296, 4,
      some (1:Int) :: List.replicate 4294967295 (some 0)⟩ : vector Int)).1 = some 1 := by
    rw [pop_vector_fst]
    show (some (1:Int) :: List.replicate 4294967295 (some 0)).getD
        ((U32_MAX + 1) % U32_MOD) none = some 1
    rw [hmod01]
    rfl
  have hp1s : (pop_vector (⟨1, 4294967296, 4,
      some (1:Int) :: List.replicate 4294967295 (some 0)⟩ : vector Int)).2
      = ⟨0, 4294967296, 4, some 1 :: List.replicate 4294967295 (some 0)⟩ := by
    apply vector.ext
    · rw [pop_vector_snd_size]
      show (U32_MAX + 1) % U32_MOD = 0
      exact hmod01
    · rw [pop_vector_snd_capacity]
    · rw [pop_vector_snd_data_size]
    · rw [pop_vector_snd_data]
  have hgetmax : (some (1:Int) :: List.replicate 4294967295 (some 0))[(4294967295:Nat)]?
      = some (some 0) := by
    rw [show ((4294967295:Nat)) = 4294967294 + 1 from by norm_num,
      List.getElem?_cons_succ, List.getElem?_replicate, if_pos (by omega)]
  have hp2f : (pop_vector (⟨0, 4294967296, 4,
      some (1:Int) :: List.replicate 4294967295 (some 0)⟩ : vector Int)).1 = some 0 := by
    rw [pop_vector_fst]
    show (some (1:Int) :: List.replicate 4294967295 (some 0)).getD
        ((U32_MAX + 0) % U32_MOD) none = some 0
    rw [hmod00, List.getD_eq_getElem?_getD, hgetmax]
    rfl
  have hp2s : (pop_vector (⟨0, 4294967296, 4,
      some (1:Int) :: List.replicate 4294967295 (some 0)⟩ : vector Int)).2
      = ⟨4294967295, 4294967296, 4, some 1 :: List.replicate 4294967295 (some 0)⟩ := by
    apply vector.ext
    · rw [pop_vector_snd_size]
      show (U32_MAX + 0) % U32_MOD = 4294967295
      exact hmod00
    · rw [pop_vector_snd_capacity]
    · rw [pop_vector_snd_data_size]
    · rw [pop_vector_snd_data]
  have htk : (some (1:Int) :: List.replicate 4294967295 (some 0)).take 4294967295
      = some 1 :: List.replicate 4294967294 (some 0) := by
    show (some (1:Int) :: List.replicate 4294967295 (some 0)).take (4294967294 + 1)
        = some 1 :: List.replicate 4294967294 (some 0)
    rw [List.take_succ_cons, List.take_replicate,
      show min (4294967294:Nat) 4294967295 = 4294967294 from by omega]
  have hrun : (pop_n 4294967295 (⟨4294967295, 4294967296, 4,
      some (1:Int) :: List.replicate 4294967295 (some 0)⟩ : vector Int)).1
      = List.replicate 4294967294 (some 0) ++ [some 1] := by
    obtain ⟨hrf, -⟩ := pop_n_run 4294967295 4294967295 4294967296 4
      (some (1:Int) :: List.replicate 4294967295 (some 0)) le_rfl
      (by unfold U32_MOD; omega)
      (by rw [List.length_cons, List.length_replicate]; omega)
    rw [hrf, Nat.sub_self, List.drop_zero, htk, List.reverse_cons,
      List.reverse_replicate]
  have hactual : (pop_n 4294967297 (⟨1, 4294967296, 4,
      some (1:Int) :: List.replicate 4294967295 (some 0)⟩ : vector Int)).1
      = [some 1] ++ ([some 0] ++ (List.replicate 4294967294 (some 0) ++ [some 1])) := by
    rw [show (4294967297:Nat) = 1 + (1 + 4294967295) from by norm_num]
    rw [pop_n_add, pop_n_one]
    simp only [hp1f, hp1s]
    rw [pop_n_add, pop_n_one]
    simp only [hp2f, hp2s]
    rw [hrun]
  have hexp : ((List.replicate 4294967296 (0:Int) ++ [1]).reverse).map some
      = some 1 :: List.replicate 4294967296 (some 0) := by
    rw [List.reverse_append, List.reverse_replicate,
      show ([1] : List Int).reverse = [1] from rfl,
      List.singleton_append, List.map_cons, List.map_replicate]
  have hpush : push_all fresh_int_vector (List.replicate 4294967296 (0:Int) ++ [1])
      = ⟨1, 4294967296, 4, some 1 :: List.replicate 4294967295 (some 0)⟩ := by
    rw [hxs, push_all_append,
      push_all_closed _ (by rw [List.length_replicate]; unfold U32_MOD; omega),
      hcanonA,
      show push_all (⟨4294967295, 4294967296, 4,
          List.replicate 4294967295 (some (0:Int)) ++ [none]⟩ : vector Int) [0, 1]
        = push_vector (push_vector (⟨4294967295, 4294967296, 4,
            List.replicate 4294967295 (some (0:Int)) ++ [none]⟩ : vector Int) 0) 1
        from rfl,
      hT, hF]
  rw [hlen, hpush, hactual, hexp] at heq
  have hcnt := congrArg (List.count (some (1:Int))) heq
  have c1 : List.count (some (1:Int)) [some 1] = 1 := by decide
  have c2 : List.count (some (1:Int)) [some 0] = 0 := by decide
  have c3 : List.count (some (1:Int)) (List.replicate 4294967294 (some 0)) = 0 := by
    rw [List.count_replicate, if_neg (by decide)]
  have c5 : List.count (some (1:Int)) (some 1 :: List.replicate 4294967296 (some 0))
      = 1 := by
    rw [List.count_cons, List.count_replicate, if_neg (by decide), if_pos (by decide)]
  rw [List.count_append, List.count_append, List.count_append, c1, c2, c3, c5] at hcnt
  omega

end DiOS
